import Mathlib

/-!
Verification development for the sysglance terminal dashboard
(`sysglance.py`).  The Python source is shallowly embedded: percentages
become rationals, Python strings become Lean strings manipulated through
their character lists, fallible code returns `Except`/`Option`, and the
outcome of each external data source (psutil, the docker CLI, nvidia-smi)
is an explicit argument of the panel builder that consumes it.

All text manipulation is re-implemented over `List Char` so that every
definition evaluates by kernel reduction on concrete inputs.
-/

/-! ### Text primitives -/

/-- Characters removed from both ends, as Python `str.strip()` with no
argument does for whitespace. -/
def stripChars (l : List Char) : List Char :=
  ((l.dropWhile Char.isWhitespace).reverse.dropWhile Char.isWhitespace).reverse

/-- Python `s.strip()`. -/
def pyStrip (s : String) : String := String.mk (stripChars s.data)

/-- Split a character list at every occurrence of `c`, keeping empty
segments, as Python `str.split(c)` does. -/
def splitChar (c : Char) : List Char → List (List Char)
  | [] => [[]]
  | x :: xs =>
    let r := splitChar c xs
    if x = c then [] :: r
    else
      match r with
      | [] => [[x]]
      | s :: ss => (x :: s) :: ss

/-- Python `s.splitlines()` restricted to inputs that were stripped first
(no trailing line terminator), which is how the source always calls it.
Multi-character terminators such as a carriage return are not modelled;
the source feeds this only with newline-separated tool output. -/
def pySplitlines (s : String) : List String :=
  if s.data = [] then [] else (splitChar (Char.ofNat 10) s.data).map String.mk

/-- Python slice `s[:n]`. -/
def strTake (s : String) (n : ℕ) : String := String.mk (s.data.take n)

/-- Python format `f"{s:<w}"`: left aligned, space padded to width `w`. -/
def padTo (s : String) (w : ℕ) : String :=
  s ++ String.mk (List.replicate (w - s.length) ' ')

/-- Right alignment to width `w` with spaces, as in `f"{x:5.1f}"`. -/
def padLeftTo (s : String) (w : ℕ) : String :=
  String.mk (List.replicate (w - s.length) ' ') ++ s

/-- Decimal digits of `n`, most significant first; `fuel`-bounded
recursion so the kernel can evaluate it. -/
def natDigits : ℕ → ℕ → List Char
  | 0, _ => []
  | fuel + 1, n => if n = 0 then [] else natDigits fuel (n / 10) ++ [Char.ofNat (48 + n % 10)]

/-- Python `str(n)` for a natural number. -/
def natRepr (n : ℕ) : String := if n = 0 then "0" else String.mk (natDigits n n)

/-- Python `str(i)` for an integer. -/
def intRepr (i : ℤ) : String := if i < 0 then "-" ++ natRepr i.natAbs else natRepr i.natAbs

/-- Whether `p` occurs at the head of `l`. -/
def headMatch : List Char → List Char → Bool
  | [], _ => true
  | _ :: _, [] => false
  | p :: ps, x :: xs => p = x && headMatch ps xs

/-- Whether `p` occurs anywhere inside `l`. -/
def occursIn (p : List Char) : List Char → Bool
  | [] => headMatch p []
  | x :: xs => headMatch p (x :: xs) || occursIn p xs

/-- Python `sub in s` on strings. -/
def strHasSub (sub s : String) : Bool := occursIn sub.data s.data

/-! ### Python float parsing and numeric formatting -/

/-- Longest digit run at the head, and the remainder. -/
def takeDigits (l : List Char) : List Char × List Char :=
  (l.takeWhile Char.isDigit, l.dropWhile Char.isDigit)

/-- Value of a digit run. -/
def natOfDigits (l : List Char) : ℕ :=
  l.foldl (fun acc c => acc * 10 + (c.toNat - 48)) 0

/-- Exponent suffix of a float literal after the letter `e`. -/
def parseExpTail (r : List Char) : Option ℤ :=
  let p : ℤ × List Char :=
    match r with
    | '+' :: r => (1, r)
    | '-' :: r => (-1, r)
    | _ => (1, r)
  let d := takeDigits p.2
  if d.1 = [] ∨ d.2 ≠ [] then none else some (p.1 * natOfDigits d.1)

/-- Python `float(s)` decomposed as an integer mantissa and a power of
ten, `none` when `float` would raise `ValueError`.  The `inf` and `nan`
keywords are not modelled; no claim involves them. -/
def pyFloatRaw (s : String) : Option (ℤ × ℤ) :=
  let l := stripChars s.data
  let p : ℤ × List Char :=
    match l with
    | '+' :: r => (1, r)
    | '-' :: r => (-1, r)
    | _ => (1, l)
  let ip := takeDigits p.2
  let fr : List Char × List Char :=
    match ip.2 with
    | '.' :: r => takeDigits r
    | _ => ([], ip.2)
  if ip.1 = [] ∧ fr.1 = [] then none
  else
    let e? : Option ℤ :=
      match fr.2 with
      | [] => some 0
      | 'e' :: r => parseExpTail r
      | 'E' :: r => parseExpTail r
      | _ => none
    match e? with
    | none => none
    | some e =>
      some (p.1 * ((natOfDigits ip.1) * 10 ^ fr.1.length + natOfDigits fr.1), e - fr.1.length)

/-- Python `float(s)` as a rational, `none` when it raises. -/
def pyFloatOpt (s : String) : Option ℚ :=
  (pyFloatRaw s).map (fun p => (p.1 : ℚ) * 10 ^ p.2)

/-- Python `int()` applied to a rational: truncation toward zero. -/
def pyTrunc (q : ℚ) : ℤ := if q < 0 then -⌊-q⌋ else ⌊q⌋

/-- Round half to even, the tie rule of Python float formatting. -/
def roundHalfEven (q : ℚ) : ℤ :=
  let f := ⌊q⌋
  if q - f < 1 / 2 then f
  else if 1 / 2 < q - f then f + 1
  else if f % 2 = 0 then f else f + 1

/-- Python format `f"{q:.1f}"` for the nonnegative values the dashboard
shows (a negative zero is not modelled). -/
def fmtFixed1 (q : ℚ) : String :=
  let n := roundHalfEven (q * 10)
  (if n < 0 then "-" else "") ++ natRepr (n.natAbs / 10) ++ "." ++ natRepr (n.natAbs % 10)

/-- Python format `f"{q:.0f}"`. -/
def fmtFixed0 (q : ℚ) : String := intRepr (roundHalfEven q)

/-- Byte count rendered as mebibytes: `f"{n / (1 << 20):.1f} MiB"`. -/
def fmtMiB (n : ℕ) : String := fmtFixed1 ((n : ℚ) / 1048576) ++ " MiB"

/-- Byte count rendered as gibibytes with a `G` suffix, as the disk
table does: `f"{n / (1 << 30):.1f}G"`. -/
def fmtGiB (n : ℕ) : String := fmtFixed1 ((n : ℚ) / 1073741824) ++ "G"

/-! ### The gauge bar (`make_bar`) -/

/-- Color override of `make_bar`: the caller's color is replaced by red
above 85 and by yellow above 60, both strictly. -/
def resolve_color (pct : ℚ) (color : String) : String :=
  if pct > 85 then "red" else if pct > 60 then "yellow" else color

/-- Cells of the bar: `'█' * filled + '░' * (width - filled)` with
`filled = int(width * pct / 100)` and width 30.  A Python string
multiplied by a negative count is empty, hence the `Int.toNat`. -/
def barGlyphs (pct : ℚ) : List Char :=
  let filled := pyTrunc (30 * pct / 100)
  List.replicate filled.toNat '█' ++ List.replicate ((30 - filled).toNat) '░'

/-- The three styled spans assembled by `make_bar`, each a text and a
style. -/
structure BarText where
  label_span : String × String
  bar_span : String × String
  pct_span : String × String
deriving DecidableEq

/-- Plain text of the assembled bar. -/
def BarText.plain (b : BarText) : String :=
  b.label_span.1 ++ b.bar_span.1 ++ b.pct_span.1

/-- Embedding of `make_bar(label, pct, color="green")`. -/
def make_bar (label : String) (pct : ℚ) (color : String := "green") : BarText :=
  let c := resolve_color pct color
  { label_span := (padTo label 10 ++ " ", "bold white")
    bar_span := ("[" ++ String.mk (barGlyphs pct) ++ "]", c)
    pct_span := (" " ++ padLeftTo (fmtFixed1 pct) 5 ++ "%", "bold " ++ c) }

/-! ### Stable insertion sort

Python `list.sort` and `sorted` are stable; `reverse=True` keeps ties in
input order as well.  Both call sites are modelled by one insertion sort
over a strict comes-before test: a new element is placed after every
element that strictly precedes it, so equal elements keep input order. -/

/-- Insert `x` after the longest prefix of elements that strictly
precede it. -/
def insertBy {α : Type} (lt : α → α → Bool) (x : α) : List α → List α
  | [] => [x]
  | y :: ys => if lt y x then y :: insertBy lt x ys else x :: y :: ys

/-- Stable sort by the strict comes-before test `lt`. -/
def sortBy {α : Type} (lt : α → α → Bool) : List α → List α
  | [] => []
  | x :: xs => insertBy lt x (sortBy lt xs)

/-! ### Disk panel -/

/-- Color of the percent cell of the disk table: inclusive boundaries,
unlike the strict thresholds of `make_bar`. -/
def disk_color (pct : ℚ) : String :=
  if pct < 60 then "green" else if pct < 85 then "yellow" else "red"

/-- Percent cell markup `f"[{color}]{pct:.0f}%[/]"`. -/
def disk_pct_cell (pct : ℚ) : String :=
  "[" ++ disk_color pct ++ "]" ++ fmtFixed0 pct ++ "%[/]"

/-- One `psutil.disk_usage` result. -/
structure DiskUsage where
  total : ℕ
  used : ℕ
  free : ℕ
  percent : ℚ
deriving DecidableEq

/-- Rows of the disk table; `none` for a partition models
`psutil.disk_usage` raising `PermissionError`, which the loop skips. -/
def disk_rows (parts : List (String × Option DiskUsage)) :
    List (String × String × String × String × String) :=
  parts.filterMap fun p =>
    match p.2 with
    | none => none
    | some u => some (p.1, fmtGiB u.total, fmtGiB u.used, fmtGiB u.free, disk_pct_cell u.percent)

/-! ### Processes panel -/

/-- One record from `psutil.process_iter(["pid", "name", "cpu_percent",
"memory_percent"])`.  A field is `none` when psutil could not read it
and substituted its `ad_value` of `None`. -/
structure ProcInfo where
  pid : ℤ
  name : Option String
  cpu_percent : Option ℚ
  memory_percent : Option ℚ
deriving DecidableEq

/-- One rendered row of the process table. -/
structure ProcRow where
  pid_cell : String
  name_cell : String
  cpu_cell : String
  mem_cell : String
deriving DecidableEq

/-- Sort key `x.get("cpu_percent") or 0`. -/
def procKey (p : ProcInfo) : ℚ := p.cpu_percent.getD 0

/-- Descending comes-before test used with `reverse=True`. -/
def ltProc (a b : ProcInfo) : Bool := decide (procKey b < procKey a)

/-- Memory cell: `f"{m:.1f}" if m else "-"`; both `None` and `0.0` are
falsy in Python. -/
def procMemCell (m : Option ℚ) : String :=
  match m with
  | some q => if q = 0 then "-" else fmtFixed1 q
  | none => "-"

/-- Row construction loop of `proc_panel`.  Formatting a `None`
cpu percent with `:.1f` raises `TypeError`, modelled by `Except.error`;
nothing in `proc_panel` catches it. -/
def procRowsOf : List ProcInfo → Except Unit (List ProcRow)
  | [] => .ok []
  | info :: rest =>
    match info.cpu_percent with
    | none => .error ()
    | some q =>
      match procRowsOf rest with
      | .error e => .error e
      | .ok rs =>
        .ok ({ pid_cell := intRepr info.pid
               name_cell := strTake (info.name.getD "?") 25
               cpu_cell := fmtFixed1 q
               mem_cell := procMemCell info.memory_percent } :: rs)

/-- Table rows of `proc_panel`.  An input entry is `none` when reading
`p.info` raised `NoSuchProcess` or `AccessDenied`, which the first loop
swallows. -/
def proc_rows (input : List (Option ProcInfo)) : Except Unit (List ProcRow) :=
  procRowsOf ((sortBy ltProc (input.filterMap id)).take 5)

/-- Display row of one process, with the `or 0` default on the cpu
field; agrees with the row the code builds whenever that field is
present. -/
def procRowTotal (info : ProcInfo) : ProcRow :=
  { pid_cell := intRepr info.pid
    name_cell := strTake (info.name.getD "?") 25
    cpu_cell := fmtFixed1 (info.cpu_percent.getD 0)
    mem_cell := procMemCell info.memory_percent }

/-! ### Network panel -/

/-- One `psutil.net_io_counters` entry. -/
structure NetIO where
  bytes_sent : ℕ
  bytes_recv : ℕ
deriving DecidableEq

/-- Ascending comes-before test of `sorted(counters.items())`: the
tuples compare by interface name first, and dictionary keys are
distinct. -/
def ltIface (a b : String × NetIO) : Bool := decide (a.1 < b.1)

/-- Rows of the network table: sorted by name, interfaces with zero
traffic in both directions skipped, counters rendered in MiB. -/
def net_rows (counters : List (String × NetIO)) : List (String × String × String) :=
  ((sortBy ltIface counters).filter
      (fun x => !(x.2.bytes_sent == 0 && x.2.bytes_recv == 0))).map
    (fun x => (x.1, fmtMiB x.2.bytes_sent, fmtMiB x.2.bytes_recv))

/-! ### GPU panel -/

/-- Outcome of the nvidia-smi invocation: binary missing on the search
path, `subprocess.run` raising (timeout included), or a completed run. -/
inductive GpuOutcome where
  | notFound
  | exn
  | ran (returncode : ℤ) (stdout : String)

/-- Renderable body of the GPU panel. -/
inductive GpuBody where
  | fallback (text : String) (style : String)
  | content (lines : List String)
deriving DecidableEq

/-- Fields of one CSV row: `[p.strip() for p in row.split(",")]`. -/
def gpuFields (row : String) : List String :=
  (splitChar ',' row.data).map (fun seg => String.mk (stripChars seg))

/-- Detail line under one GPU bar. -/
def gpuDetail (name memUsed memTotal temp : String) : String :=
  "           " ++ name ++ "  |  " ++ memUsed ++ "/" ++ memTotal ++ " MiB  |  " ++ temp ++ "°C"

/-- Per-row loop of `gpu_panel`.  Rows with fewer than six fields are
skipped; more than six make the tuple unpacking raise `ValueError`, and
an unparsable utilization field makes `float` raise; either exception
aborts the whole loop (`Except.error`). -/
def gpu_lines : List String → Except Unit (List String)
  | [] => .ok []
  | row :: rest =>
    let parts := gpuFields row
    if parts.length < 6 then gpu_lines rest
    else if 6 < parts.length then .error ()
    else
      match pyFloatOpt (parts.getD 2 "") with
      | none => .error ()
      | some util =>
        match gpu_lines rest with
        | .error e => .error e
        | .ok ls =>
          .ok ((make_bar ("GPU " ++ parts.getD 0 "") util).plain
                :: gpuDetail (parts.getD 1 "") (parts.getD 3 "") (parts.getD 4 "")
                    (parts.getD 5 "")
                :: "" :: ls)

/-- Embedding of `gpu_panel`: the outer `except Exception` maps any
escaped exception to the generic fallback. -/
def gpu_panel : GpuOutcome → GpuBody
  | .notFound => .fallback "No GPU detected (nvidia-smi not found)" "dim italic"
  | .exn => .fallback "No GPU detected" "dim italic"
  | .ran rc out =>
    if rc ≠ 0 then .fallback "nvidia-smi returned an error" "bold red"
    else
      match gpu_lines (pySplitlines (pyStrip out)) with
      | .error _ => .fallback "No GPU detected" "dim italic"
      | .ok [] => .fallback "No GPU data returned" "dim italic"
      | .ok ls => .content ls

/-! ### Containers panel -/

/-- One parsed `docker ps --format json` record: the outcome of
`c.get(key)` for each key the code reads. -/
structure DockerRec where
  names : Option String
  image : Option String
  status : Option String
  state : Option String
  ports : Option String
deriving DecidableEq

/-- One rendered row of the container table. -/
structure DockRow where
  name_cell : String
  image_cell : String
  status_cell : String
  ports_cell : String
deriving DecidableEq

/-- Status text `c.get("Status", c.get("State", ""))`. -/
def dockerStatusOf (c : DockerRec) : String :=
  match c.status with
  | some s => s
  | none => c.state.getD ""

/-- Embedding of `_docker_container_row`; the input is the outcome of
`json.loads` on one line, `none` on `JSONDecodeError` (the row is
dropped and nothing is added to the table). -/
def docker_container_row (c : Option DockerRec) : Option DockRow :=
  match c with
  | none => none
  | some c =>
    let status := dockerStatusOf c
    let color := if strHasSub "Up" status then "green" else "yellow"
    let ports0 := c.ports.getD ""
    let ports := if 40 < ports0.length then strTake ports0 37 ++ "..." else ports0
    some { name_cell := strTake (c.names.getD "?") 20
           image_cell := strTake (c.image.getD "?") 25
           status_cell := "[" ++ color ++ "]" ++ strTake status 25 ++ "[/]"
           ports_cell := ports }

/-- Outcome of the docker invocation.  In `ran`, `lines` carries the
`json.loads` outcome of each line of the stripped stdout; a stripped
nonempty output never starts with a line terminator, so the
`not lines[0]` branch of the source is subsumed by the empty-list
check. -/
inductive DockerOutcome where
  | notFound
  | exn
  | ran (returncode : ℤ) (stderr : String) (lines : List (Option DockerRec))

/-- Renderable body of the containers panel. -/
inductive DockerBody where
  | fallback (text : String)
  | table (rows : List DockRow)
deriving DecidableEq

/-- Error message on a nonzero exit:
`result.stderr.strip().split("\n")[0] if result.stderr else ...`. -/
def docker_err_msg (err : String) : String :=
  if err = "" then "docker returned an error"
  else (((splitChar (Char.ofNat 10) (pyStrip err).data)).map String.mk).headD ""

/-- Embedding of `docker_panel`. -/
def docker_panel : DockerOutcome → DockerBody
  | .notFound => .fallback "docker not found in PATH"
  | .exn => .fallback "Could not query Docker"
  | .ran rc err lines =>
    if rc ≠ 0 then .fallback (strTake (docker_err_msg err) 80)
    else if lines.isEmpty then .fallback "No running containers"
    else .table (lines.filterMap docker_container_row)

/-! ### Layout -/

/-- A rich `Layout` tree: named leaf regions hold at most one panel,
inner nodes come from `split_column`/`split_row`. -/
inductive LayoutTree (α : Type) where
  | leaf (name : String) (content : Option α)
  | node (name : Option String) (children : List (LayoutTree α))

/-- Embedding of `build_layout`: geometry ratios and sizes are not part
of the model, the region tree is. -/
def build_layout {α : Type} : LayoutTree α :=
  .node none
    [ .leaf "header" none
    , .node (some "upper") [.leaf "cpu" none, .leaf "mem" none]
    , .node (some "lower")
        [ .node (some "left") [.leaf "disk" none, .leaf "net" none]
        , .node (some "right")
            [.leaf "proc" none, .leaf "docker" none, .leaf "gpu" none] ] ]

mutual
/-- Embedding of `layout[target].update(p)`. -/
def updateRegion {α : Type} (target : String) (p : α) : LayoutTree α → LayoutTree α
  | .leaf n c => if n = target then .leaf n (some p) else .leaf n c
  | .node n cs => .node n (updateRegionList target p cs)
/-- List companion of `updateRegion`. -/
def updateRegionList {α : Type} (target : String) (p : α) :
    List (LayoutTree α) → List (LayoutTree α)
  | [] => []
  | t :: ts => updateRegion target p t :: updateRegionList target p ts
end

mutual
/-- Names of the panel-holding leaf regions, left to right. -/
def leafNames {α : Type} : LayoutTree α → List String
  | .leaf n _ => [n]
  | .node _ cs => leafNamesList cs
/-- List companion of `leafNames`. -/
def leafNamesList {α : Type} : List (LayoutTree α) → List String
  | [] => []
  | t :: ts => leafNames t ++ leafNamesList ts
end

mutual
/-- The tree with contents erased: region identity and geometry only. -/
def layoutShape {α : Type} : LayoutTree α → LayoutTree Unit
  | .leaf n _ => .leaf n none
  | .node n cs => .node n (layoutShapeList cs)
/-- List companion of `layoutShape`. -/
def layoutShapeList {α : Type} : List (LayoutTree α) → List (LayoutTree Unit)
  | [] => []
  | t :: ts => layoutShape t :: layoutShapeList ts
end

mutual
/-- Contents of the leaf regions, left to right. -/
def leafContents {α : Type} : LayoutTree α → List (Option α)
  | .leaf _ c => [c]
  | .node _ cs => leafContentsList cs
/-- List companion of `leafContents`. -/
def leafContentsList {α : Type} : List (LayoutTree α) → List (Option α)
  | [] => []
  | t :: ts => leafContents t ++ leafContentsList ts
end

/-- Embedding of `refresh_panels`: one update per region, in source
order. -/
def refresh_panels {α : Type} (l : LayoutTree α)
    (header cpu mem disk proc net docker gpu : α) : LayoutTree α :=
  updateRegion "gpu" gpu (updateRegion "docker" docker (updateRegion "net" net
    (updateRegion "proc" proc (updateRegion "disk" disk (updateRegion "mem" mem
      (updateRegion "cpu" cpu (updateRegion "header" header l)))))))

/-! ### String helper lemmas -/

theorem data_append (s t : String) : (s ++ t).data = s.data ++ t.data := by
  cases s; cases t; rfl

theorem strLength_append (s t : String) : (s ++ t).length = s.length + t.length := by
  cases s with
  | mk a =>
    cases t with
    | mk b => exact List.length_append a b

theorem strAppend_assoc (a b c : String) : (a ++ b) ++ c = a ++ (b ++ c) := by
  cases a with
  | mk x =>
    cases b with
    | mk y =>
      cases c with
      | mk z => exact congrArg String.mk (List.append_assoc x y z)

theorem strTake_length (s : String) (n : ℕ) : (strTake s n).length = min n s.length :=
  List.length_take n s.data

theorem padTo_eq_append (s : String) (w : ℕ) :
    padTo s w = s ++ String.mk (List.replicate (w - s.length) ' ') := rfl

/-! ### Stable sort lemmas -/

theorem insertBy_perm {α : Type} (lt : α → α → Bool) (x : α) (l : List α) :
    (insertBy lt x l).Perm (x :: l) := by
  induction l with
  | nil => exact List.Perm.refl _
  | cons y ys ih =>
    simp only [insertBy]
    split
    · exact (ih.cons y).trans (List.Perm.swap x y ys)
    · exact List.Perm.refl _

theorem sortBy_perm {α : Type} (lt : α → α → Bool) (l : List α) : (sortBy lt l).Perm l := by
  induction l with
  | nil => exact List.Perm.refl _
  | cons x xs ih => exact (insertBy_perm lt x (sortBy lt xs)).trans (ih.cons x)

theorem insertBy_pairwise {α : Type} {lt : α → α → Bool}
    (Hasym : ∀ a b, lt a b = true → lt b a = false)
    (Htrans : ∀ a b c, lt a b = false → lt b c = false → lt a c = false)
    (x : α) {s : List α} (hs : s.Pairwise (fun a b => lt b a = false)) :
    (insertBy lt x s).Pairwise (fun a b => lt b a = false) := by
  induction s with
  | nil => simp [insertBy]
  | cons y ys ih =>
    rcases List.pairwise_cons.mp hs with ⟨hy, hys⟩
    simp only [insertBy]
    split
    case isTrue h =>
      refine List.pairwise_cons.mpr ⟨?_, ih hys⟩
      intro b hb
      rcases List.mem_cons.mp ((insertBy_perm lt x ys).mem_iff.mp hb) with hbx | hb2
      · rw [hbx]; exact Hasym y x h
      · exact hy b hb2
    case isFalse h =>
      have hyx : lt y x = false := by
        cases hxx : lt y x with
        | true => exact absurd hxx h
        | false => rfl
      refine List.pairwise_cons.mpr ⟨?_, hs⟩
      intro b hb
      rcases List.mem_cons.mp hb with hby | hb2
      · rw [hby]; exact hyx
      · exact Htrans b y x (hy b hb2) hyx

theorem sortBy_pairwise {α : Type} {lt : α → α → Bool}
    (Hasym : ∀ a b, lt a b = true → lt b a = false)
    (Htrans : ∀ a b c, lt a b = false → lt b c = false → lt a c = false)
    (l : List α) : (sortBy lt l).Pairwise (fun a b => lt b a = false) := by
  induction l with
  | nil => exact List.Pairwise.nil
  | cons x xs ih => exact insertBy_pairwise Hasym Htrans x ih

theorem insertBy_filter_pos {α : Type} (lt : α → α → Bool) (q : α → Bool) (x : α)
    (s : List α) (hx : q x = true) (h : ∀ y, lt y x = true → q y = false) :
    (insertBy lt x s).filter q = x :: s.filter q := by
  induction s with
  | nil => simp [insertBy, List.filter_cons, hx]
  | cons y ys ih =>
    simp only [insertBy]
    split
    case isTrue hyx =>
      have hqy : q y = false := h y hyx
      simp [List.filter_cons, hqy, ih]
    case isFalse hyx =>
      simp [List.filter_cons, hx]

theorem insertBy_filter_neg {α : Type} (lt : α → α → Bool) (q : α → Bool) (x : α)
    (s : List α) (hx : q x = false) :
    (insertBy lt x s).filter q = s.filter q := by
  induction s with
  | nil => simp [insertBy, List.filter_cons, hx]
  | cons y ys ih =>
    simp only [insertBy]
    split
    case isTrue hyx => simp [List.filter_cons, ih]
    case isFalse hyx => simp [List.filter_cons, hx]

theorem sortBy_filter {α : Type} {lt : α → α → Bool} (q : α → Bool)
    (H : ∀ a b, q a = true → lt b a = true → q b = false) (l : List α) :
    (sortBy lt l).filter q = l.filter q := by
  induction l with
  | nil => rfl
  | cons x xs ih =>
    simp only [sortBy]
    cases hx : q x with
    | true =>
      rw [insertBy_filter_pos lt q x _ hx (fun y hy => H x y hx hy), ih,
        List.filter_cons, hx]
      simp
    | false =>
      rw [insertBy_filter_neg lt q x _ hx, ih, List.filter_cons, hx]
      simp

/-! ### Color policy helper lemmas -/

theorem resolve_color_of_critical {pct : ℚ} (h : 85 < pct) (b : String) :
    resolve_color pct b = "red" := by
  simp [resolve_color, h]

theorem resolve_color_of_warning {pct : ℚ} (h1 : 60 < pct) (h2 : pct ≤ 85) (b : String) :
    resolve_color pct b = "yellow" := by
  have h3 : ¬ (85 : ℚ) < pct := not_lt.mpr h2
  simp [resolve_color, h3, h1]

theorem resolve_color_of_low {pct : ℚ} (h : pct ≤ 60) (b : String) :
    resolve_color pct b = b := by
  have h1 : ¬ (85 : ℚ) < pct := by linarith
  have h2 : ¬ (60 : ℚ) < pct := not_lt.mpr h
  simp [resolve_color, h1, h2]

/-! ### Claim C1: gauge bar color tiers -/

/-- C1: for every percent and caller-supplied base color, the bar color
is red (critical) exactly when the percent exceeds 85, yellow (warning)
exactly when it lies in the half-open interval from 60 exclusive to 85
inclusive, and the caller's base color otherwise; the boundary values 60
and 85 do not upgrade the tier, any base color is overridden above 60,
and `make_bar` styles its bar and percent spans with that color. -/
theorem make_bar_tier_policy (pct : ℚ) (base : String) :
    ((∀ b : String, resolve_color pct b = "red") ↔ 85 < pct) ∧
    ((∀ b : String, resolve_color pct b = "yellow") ↔ 60 < pct ∧ pct ≤ 85) ∧
    (pct ≤ 60 → resolve_color pct base = base) ∧
    resolve_color 60 base = base ∧
    resolve_color 85 base = "yellow" ∧
    (60 < pct → resolve_color pct base = "red" ∨ resolve_color pct base = "yellow") ∧
    (∀ lbl : String, (make_bar lbl pct base).bar_span.2 = resolve_color pct base ∧
      (make_bar lbl pct base).pct_span.2 = "bold " ++ resolve_color pct base) := by
  have hry : ("red" : String) ≠ "yellow" := by decide
  refine ⟨⟨?_, fun h b => resolve_color_of_critical h b⟩,
      ⟨?_, fun h b => resolve_color_of_warning h.1 h.2 b⟩,
      fun h => resolve_color_of_low h base,
      resolve_color_of_low (by norm_num) base,
      resolve_color_of_warning (by norm_num) (by norm_num) base,
      ?_, fun lbl => ⟨rfl, rfl⟩⟩
  · intro h
    by_contra hn
    rcases not_lt.mp hn |>.lt_or_eq with h85 | h85
    · rcases le_or_lt pct 60 with h60 | h60
      · have := h "cyan"
        rw [resolve_color_of_low h60 "cyan"] at this
        exact absurd this (by decide)
      · have := h "cyan"
        rw [resolve_color_of_warning h60 (le_of_lt h85) "cyan"] at this
        exact absurd this (Ne.symm hry)
    · have := h "cyan"
      rw [h85, resolve_color_of_warning (by norm_num) (by norm_num) "cyan"] at this
      exact absurd this (Ne.symm hry)
  · intro h
    constructor
    · by_contra hn
      rcases not_lt.mp hn |>.lt_or_eq with h60 | h60
      · have := h "cyan"
        rw [resolve_color_of_low (le_of_lt h60) "cyan"] at this
        exact absurd this (by decide)
      · have := h "cyan"
        rw [h60, resolve_color_of_low (by norm_num) "cyan"] at this
        exact absurd this (by decide)
    · by_contra hn
      have h85 : 85 < pct := not_le.mp hn
      have := h "cyan"
      rw [resolve_color_of_critical h85 "cyan"] at this
      exact absurd this hry
  · intro h
    rcases le_or_lt pct 85 with h85 | h85
    · exact Or.inr (resolve_color_of_warning h h85 base)
    · exact Or.inl (resolve_color_of_critical h85 base)

/-- Witness for C1 at concrete inputs: 90 percent forces red over cyan,
70 gives yellow, the boundaries 60 and 85 do not upgrade. -/
theorem make_bar_tier_policy_witness :
    resolve_color 90 "cyan" = "red" ∧ resolve_color 70 "cyan" = "yellow" ∧
    resolve_color 60 "cyan" = "cyan" ∧ resolve_color 85 "cyan" = "yellow" :=
  ⟨((make_bar_tier_policy 90 "cyan").1.mpr (by norm_num)) "cyan",
   ((make_bar_tier_policy 70 "cyan").2.1.mpr ⟨by norm_num, by norm_num⟩) "cyan",
   (make_bar_tier_policy 60 "cyan").2.2.2.1,
   (make_bar_tier_policy 85 "cyan").2.2.2.2.1⟩

/-! ### Claim C4: disk table percent cell colors -/

/-- C4: the disk table colors a percent green exactly below 60, yellow
exactly in the half-open interval from 60 inclusive to 85 exclusive, and
red exactly from 85 on (inclusive boundaries, unlike the strict bar
thresholds), and the percent cell markup opens with that color. -/
theorem disk_percent_color_policy (pct : ℚ) :
    (disk_color pct = "green" ↔ pct < 60) ∧
    (disk_color pct = "yellow" ↔ 60 ≤ pct ∧ pct < 85) ∧
    (disk_color pct = "red" ↔ 85 ≤ pct) ∧
    (∃ rest : String, disk_pct_cell pct = "[" ++ disk_color pct ++ "]" ++ rest) := by
  have hgreen : ∀ h : pct < 60, disk_color pct = "green" := fun h => by
    simp [disk_color, h]
  have hyellow : ∀ (h1 : 60 ≤ pct) (h2 : pct < 85), disk_color pct = "yellow" :=
    fun h1 h2 => by simp [disk_color, not_lt.mpr h1, h2]
  have hred : ∀ h : 85 ≤ pct, disk_color pct = "red" := fun h => by
    have h1 : ¬ pct < 60 := by linarith
    have h2 : ¬ pct < 85 := not_lt.mpr h
    simp [disk_color, h1, h2]
  refine ⟨⟨?_, hgreen⟩, ⟨?_, fun h => hyellow h.1 h.2⟩, ⟨?_, hred⟩,
      ⟨fmtFixed0 pct ++ "%[/]", ?_⟩⟩
  · intro h
    by_contra hn
    rcases lt_or_le pct 85 with h85 | h85
    · rw [hyellow (not_lt.mp hn) h85] at h
      exact absurd h (by decide)
    · rw [hred h85] at h
      exact absurd h (by decide)
  · intro h
    rcases lt_or_le pct 60 with h60 | h60
    · rw [hgreen h60] at h
      exact absurd h (by decide)
    rcases lt_or_le pct 85 with h85 | h85
    · exact ⟨h60, h85⟩
    · rw [hred h85] at h
      exact absurd h (by decide)
  · intro h
    by_contra hn
    rcases lt_or_le pct 60 with h60 | h60
    · rw [hgreen h60] at h
      exact absurd h (by decide)
    · rw [hyellow h60 (not_le.mp hn)] at h
      exact absurd h (by decide)
  · rw [disk_pct_cell, strAppend_assoc]

/-- Witness for C4 at the boundary values 59, 60 and 85. -/
theorem disk_percent_color_policy_witness :
    disk_color 59 = "green" ∧ disk_color 60 = "yellow" ∧ disk_color 85 = "red" :=
  ⟨(disk_percent_color_policy 59).1.mpr (by norm_num),
   (disk_percent_color_policy 60).2.1.mpr ⟨by norm_num, by norm_num⟩,
   (disk_percent_color_policy 85).2.2.1.mpr (by norm_num)⟩

/-! ### Claim C3: bar width and fill count -/

/-- C3 counterexample: at 5 percent the code fills
`int(30 * 5 / 100) = int(1.5) = 1` cell while rounding would give 2, so
the fill count is not `round(width * percent / 100)`; and at 110 percent
the bar is 33 cells wide, not 30, because the padding multiplier is
negative. -/
theorem make_bar_fill_not_round :
    (barGlyphs 5).count '█' = 1 ∧ roundHalfEven ((30 : ℚ) * 5 / 100) = 2 ∧
    (barGlyphs 110).length = 33 := by
  have h5 : pyTrunc ((30 : ℚ) * 5 / 100) = 1 := by
    rw [pyTrunc, if_neg (by norm_num)]
    norm_num
  have h110 : pyTrunc ((30 : ℚ) * 110 / 100) = 33 := by
    rw [pyTrunc, if_neg (by norm_num)]
    norm_num
  refine ⟨?_, ?_, ?_⟩
  · simp [barGlyphs, h5, List.count_append, List.count_replicate]
  · have hf : ⌊(30 : ℚ) * 5 / 100⌋ = 1 := by norm_num
    rw [roundHalfEven]
    simp only [hf]
    norm_num
  · simp [barGlyphs, h110]

/-- C3 amended: for percents between 0 and 100 the bar is 30 cells wide
and the fill count is the floor (Python `int` truncation, not rounding)
of `30 * percent / 100`, characterized by the two floor inequalities;
the caller's label is embedded verbatim at the start of the plain text
for every input. -/
theorem make_bar_fill_truncates (label : String) (pct : ℚ) (c : String)
    (h0 : 0 ≤ pct) (h100 : pct ≤ 100) :
    (barGlyphs pct).length = 30 ∧
    ((barGlyphs pct).count '█' : ℤ) = pyTrunc (30 * pct / 100) ∧
    (pyTrunc (30 * pct / 100) : ℚ) ≤ 30 * pct / 100 ∧
    30 * pct / 100 < pyTrunc (30 * pct / 100) + 1 ∧
    ∃ rest : String, (make_bar label pct c).plain = label ++ rest := by
  have hq0 : (0 : ℚ) ≤ 30 * pct / 100 := by positivity
  have htr : pyTrunc (30 * pct / 100) = ⌊30 * pct / 100⌋ := by
    rw [pyTrunc, if_neg (not_lt.mpr hq0)]
  have hf0 : 0 ≤ ⌊30 * pct / 100⌋ := Int.le_floor.mpr (by exact_mod_cast hq0)
  have hf30 : ⌊30 * pct / 100⌋ ≤ 30 := by
    have h30 : (30 : ℚ) * pct / 100 ≤ 30 := by linarith
    have := Int.floor_le_floor h30
    simpa using this
  refine ⟨?_, ?_, ?_, ?_, ?_⟩
  · simp only [barGlyphs, htr, List.length_append, List.length_replicate]
    omega
  · simp [barGlyphs, htr, List.count_append, List.count_replicate]
    exact hf0
  · rw [htr]
    exact Int.floor_le _
  · rw [htr]
    exact Int.lt_floor_add_one _
  · refine ⟨String.mk (List.replicate (10 - label.length) ' ') ++ (" " ++
      ((make_bar label pct c).bar_span.1 ++ (make_bar label pct c).pct_span.1)), ?_⟩
    show (padTo label 10 ++ " ") ++ _ ++ _ = _
    rw [padTo_eq_append, strAppend_assoc, strAppend_assoc, strAppend_assoc]

/-- Witness for C3 amended at 62 percent. -/
theorem make_bar_fill_truncates_witness :
    ((0 : ℚ) ≤ 62 ∧ (62 : ℚ) ≤ 100) ∧ (barGlyphs 62).length = 30 :=
  ⟨⟨by norm_num, by norm_num⟩,
   (make_bar_fill_truncates "CPU" 62 "green" (by norm_num) (by norm_num)).1⟩

/-! ### Claim C5: top processes panel -/

theorem ltProc_asym : ∀ a b, ltProc a b = true → ltProc b a = false := by
  intro a b h
  simp only [ltProc, decide_eq_true_eq] at h
  simp only [ltProc, decide_eq_false_iff_not]
  exact lt_asymm h

theorem ltProc_compl_trans :
    ∀ a b c, ltProc a b = false → ltProc b c = false → ltProc a c = false := by
  intro a b c h1 h2
  simp only [ltProc, decide_eq_false_iff_not, not_lt] at h1 h2 ⊢
  exact le_trans h1 h2

theorem procRowsOf_ok (l : List ProcInfo)
    (h : ∀ p ∈ l, p.cpu_percent.isSome = true) :
    procRowsOf l = .ok (l.map procRowTotal) := by
  induction l with
  | nil => rfl
  | cons p ps ih =>
    have hp := h p (List.mem_cons_self p ps)
    match hcpu : p.cpu_percent with
    | none => rw [hcpu] at hp; simp at hp
    | some q =>
      rw [procRowsOf, hcpu, ih (fun x hx => h x (List.mem_cons_of_mem p hx))]
      simp [procRowTotal, hcpu]

/-- C5: the process table is built from the readable process records
(the unreadable ones are dropped first), stably sorted by descending
cpu key and cut to five rows: the sorted list is a permutation of the
kept records, consecutive keys never increase, records with equal keys
keep their input order, every selected record's key dominates every
unselected one, names are cut to 25 characters, and a missing memory
percent renders as the placeholder. -/
theorem proc_panel_top5_spec (input : List (Option ProcInfo))
    (hread : ∀ p ∈ input.filterMap id, p.cpu_percent.isSome = true) :
    proc_rows input =
      .ok (((sortBy ltProc (input.filterMap id)).take 5).map procRowTotal) ∧
    (sortBy ltProc (input.filterMap id)).Perm (input.filterMap id) ∧
    (sortBy ltProc (input.filterMap id)).Pairwise
      (fun a b => procKey b ≤ procKey a) ∧
    (∀ v : ℚ,
      (sortBy ltProc (input.filterMap id)).filter (fun p => decide (procKey p = v)) =
        (input.filterMap id).filter (fun p => decide (procKey p = v))) ∧
    (∀ a ∈ (sortBy ltProc (input.filterMap id)).take 5,
      ∀ b ∈ (sortBy ltProc (input.filterMap id)).drop 5, procKey b ≤ procKey a) ∧
    ((proc_rows input).toOption.getD []).length ≤ 5 ∧
    (∀ p : ProcInfo, (procRowTotal p).name_cell.length ≤ 25) ∧
    (∀ p : ProcInfo, p.memory_percent = none → (procRowTotal p).mem_cell = "-") := by
  have hperm := sortBy_perm ltProc (input.filterMap id)
  have hpw0 := sortBy_pairwise ltProc_asym ltProc_compl_trans (input.filterMap id)
  have hpw : (sortBy ltProc (input.filterMap id)).Pairwise
      (fun a b => procKey b ≤ procKey a) := by
    refine hpw0.imp ?_
    intro a b hab
    simpa [ltProc, not_lt] using hab
  have hok : proc_rows input =
      .ok (((sortBy ltProc (input.filterMap id)).take 5).map procRowTotal) := by
    rw [proc_rows]
    refine procRowsOf_ok _ ?_
    intro p hp
    exact hread p (hperm.mem_iff.mp (List.take_subset 5 _ hp))
  refine ⟨hok, hperm, hpw, ?_, ?_, ?_, ?_, ?_⟩
  · intro v
    refine sortBy_filter _ ?_ _
    intro a b ha hab
    simp only [decide_eq_true_eq] at ha
    simp only [ltProc, decide_eq_true_eq] at hab
    simp only [decide_eq_false_iff_not]
    intro hbv
    rw [ha, hbv] at hab
    exact lt_irrefl v hab
  · have hsplit : (sortBy ltProc (input.filterMap id)).take 5 ++
        (sortBy ltProc (input.filterMap id)).drop 5 =
        sortBy ltProc (input.filterMap id) := List.take_append_drop 5 _
    have := List.pairwise_append.mp (by rw [hsplit]; exact hpw)
    intro a ha b hb
    exact this.2.2 a ha b hb
  · rw [hok]
    simp only [Except.toOption, Option.getD, List.length_map]
    have := List.length_take 5 (sortBy ltProc (input.filterMap id))
    omega
  · intro p
    have : (procRowTotal p).name_cell.length = min 25 (p.name.getD "?").length :=
      strTake_length _ _
    omega
  · intro p hmem
    simp [procRowTotal, procMemCell, hmem]

/-- Witness for C5 on three process records, one of which is an
unreadable entry that gets dropped. -/
theorem proc_panel_top5_spec_witness :
    (∀ p ∈ ([some ⟨11, some "python", some 45, some 2⟩, none,
        some ⟨22, some "bash", some 1, none⟩] :
        List (Option ProcInfo)).filterMap id, p.cpu_percent.isSome = true) ∧
    proc_rows [some ⟨11, some "python", some 45, some 2⟩, none,
        some ⟨22, some "bash", some 1, none⟩] =
      .ok (((sortBy ltProc (([some ⟨11, some "python", some 45, some 2⟩, none,
        some ⟨22, some "bash", some 1, none⟩] :
        List (Option ProcInfo)).filterMap id)).take 5).map procRowTotal) :=
  ⟨by decide,
   (proc_panel_top5_spec [some ⟨11, some "python", some 45, some 2⟩, none,
      some ⟨22, some "bash", some 1, none⟩] (by decide)).1⟩

/-! ### Claim C2: the panel-builder no-raise boundary -/

/-- C2: evaluation of the process panel at a single readable process
record whose cpu percent field was unreadable (psutil substitutes
`None`): the row loop formats that `None` with `:.1f` and raises, so
the builder does not return a panel.  The claimed invariant that no
error propagates out of a panel builder fails here. -/
theorem proc_panel_none_cpu_raises :
    proc_rows [some ⟨7, some "kworker", none, none⟩] = .error () := rfl

/-! ### Claim C6: network panel rows -/

theorem ltIface_asym : ∀ a b, ltIface a b = true → ltIface b a = false := by
  intro a b h
  simp only [ltIface, decide_eq_true_eq] at h
  simp only [ltIface, decide_eq_false_iff_not]
  exact lt_asymm h

theorem ltIface_compl_trans :
    ∀ a b c, ltIface a b = false → ltIface b c = false → ltIface a c = false := by
  intro a b c h1 h2
  simp only [ltIface, decide_eq_false_iff_not, not_lt] at h1 h2 ⊢
  exact le_trans h2 h1

/-- C6: the network table is sorted by interface name, an interface with
zero sent and zero received bytes contributes no row, and an interface
with nonzero traffic contributes its row with MiB-formatted counters. -/
theorem net_panel_rows_spec (counters : List (String × NetIO))
    (hnd : (counters.map Prod.fst).Nodup) :
    (net_rows counters).Pairwise (fun a b => a.1 ≤ b.1) ∧
    (∀ name io, (name, io) ∈ counters →
      ¬(io.bytes_sent = 0 ∧ io.bytes_recv = 0) →
      (name, fmtMiB io.bytes_sent, fmtMiB io.bytes_recv) ∈ net_rows counters) ∧
    (∀ name io, (name, io) ∈ counters → io.bytes_sent = 0 → io.bytes_recv = 0 →
      ∀ r ∈ net_rows counters, r.1 ≠ name) := by
  have hperm := sortBy_perm ltIface counters
  have hpw0 := sortBy_pairwise ltIface_asym ltIface_compl_trans counters
  refine ⟨?_, ?_, ?_⟩
  · rw [net_rows]
    refine List.pairwise_map.mpr ?_
    refine List.Pairwise.filter _ ?_
    refine hpw0.imp ?_
    intro a b hab
    simpa [ltIface, not_lt] using hab
  · intro name io hmem hnz
    rw [net_rows]
    refine List.mem_map.mpr ⟨(name, io), ?_, rfl⟩
    refine List.mem_filter.mpr ⟨hperm.mem_iff.mpr hmem, ?_⟩
    simp only [Bool.not_eq_eq_eq_not, Bool.not_true, Bool.and_eq_false_imp,
      beq_iff_eq]
    simp only [not_and] at hnz
    by_cases hs : io.bytes_sent = 0
    · simp [Bool.not_eq_true', beq_eq_false_iff_ne, hs, hnz hs]
    · simp [Bool.not_eq_true', beq_eq_false_iff_ne, hs]
  · intro name io hmem hs hr r hrow hname
    rw [net_rows] at hrow
    rcases List.mem_map.mp hrow with ⟨x, hxf, hxr⟩
    have hxs := List.mem_filter.mp hxf
    have hxmem : x ∈ counters := hperm.mem_iff.mp hxs.1
    have hx1 : x.1 = name := by rw [← hxr] at hname; exact hname
    have hxeq : x = (name, io) := by
      have := List.inj_on_of_nodup_map hnd hxmem hmem
      exact this (by simpa using hx1)
    have hcond := hxs.2
    rw [hxeq] at hcond
    simp [hs, hr] at hcond

/-- Witness for C6: a loopback interface with zero traffic and an
ethernet interface with traffic. -/
theorem net_panel_rows_spec_witness :
    ((([("eth0", (⟨5242880, 10485760⟩ : NetIO)), ("lo", (⟨0, 0⟩ : NetIO))] :
        List (String × NetIO)).map Prod.fst).Nodup) ∧
    ("eth0", fmtMiB 5242880, fmtMiB 10485760) ∈
      net_rows [("eth0", (⟨5242880, 10485760⟩ : NetIO)), ("lo", (⟨0, 0⟩ : NetIO))] ∧
    (∀ r ∈ net_rows [("eth0", (⟨5242880, 10485760⟩ : NetIO)), ("lo", (⟨0, 0⟩ : NetIO))],
      r.1 ≠ "lo") :=
  ⟨by decide,
   (net_panel_rows_spec _ (by decide)).2.1 "eth0" ((⟨5242880, 10485760⟩ : NetIO))
     (by decide) (by decide),
   (net_panel_rows_spec _ (by decide)).2.2 "lo" ((⟨0, 0⟩ : NetIO))
     (by decide) (by decide) (by decide)⟩

/-! ### Claims C7 and C10: GPU panel -/

theorem gpu_lines_skip_all (rows : List String)
    (h : ∀ r ∈ rows, (gpuFields r).length < 6) : gpu_lines rows = .ok [] := by
  induction rows with
  | nil => rfl
  | cons r rest ih =>
    rw [gpu_lines]
    simp only [if_pos (h r (List.mem_cons_self r rest))]
    exact ih (fun x hx => h x (List.mem_cons_of_mem r hx))

theorem gpu_lines_error_of_bad (rows : List String) (r : String) (hr : r ∈ rows)
    (h6 : 6 ≤ (gpuFields r).length)
    (hbad : pyFloatOpt ((gpuFields r).getD 2 "") = none) :
    gpu_lines rows = .error () := by
  induction rows with
  | nil => cases hr
  | cons x rest ih =>
    rw [gpu_lines]
    rcases List.mem_cons.mp hr with hx | hx
    · rw [hx] at h6 hbad
      rw [if_neg (by omega)]
      rcases lt_or_eq_of_le h6 with h7 | h7
      · rw [if_pos h7]
      · rw [if_neg (by omega), hbad]
    · have htail := ih hx
      by_cases hlen : (gpuFields x).length < 6
      · rw [if_pos hlen]
        exact htail
      · rw [if_neg hlen]
        by_cases h7 : 6 < (gpuFields x).length
        · rw [if_pos h7]
        · rw [if_neg h7]
          cases hfl : pyFloatOpt ((gpuFields x).getD 2 "") with
          | none => rfl
          | some u => rw [htail]

/-- C7: the GPU panel's outcome mapping: a missing tool yields the
fallback that names the missing binary (it contains a "not found"
indicator), a nonzero exit yields the error fallback, empty stripped
output yields the no-data fallback, output whose every record has fewer
than six fields yields that same no-data fallback, and a single
six-field record with a parseable utilization yields a content block
whose bar line starts with the GPU index and whose detail line carries
the name and the temperature with its degree unit. -/
theorem gpu_panel_outcome_mapping :
    (gpu_panel .notFound =
        .fallback "No GPU detected (nvidia-smi not found)" "dim italic" ∧
      ∃ a b : String,
        "No GPU detected (nvidia-smi not found)" = a ++ "not found" ++ b) ∧
    (∀ (rc : ℤ) (out : String), rc ≠ 0 →
      gpu_panel (.ran rc out) = .fallback "nvidia-smi returned an error" "bold red") ∧
    (∀ out : String, pyStrip out = "" →
      gpu_panel (.ran 0 out) = .fallback "No GPU data returned" "dim italic") ∧
    (∀ out : String,
      (∀ r ∈ pySplitlines (pyStrip out), (gpuFields r).length < 6) →
      gpu_panel (.ran 0 out) = .fallback "No GPU data returned" "dim italic") ∧
    (∀ (out row i n u mu mt t : String) (q : ℚ),
      pySplitlines (pyStrip out) = [row] →
      gpuFields row = [i, n, u, mu, mt, t] →
      pyFloatOpt u = some q →
      gpu_panel (.ran 0 out) =
        .content [(make_bar ("GPU " ++ i) q).plain, gpuDetail n mu mt t, ""] ∧
      (∃ rest : String, (make_bar ("GPU " ++ i) q).plain = "GPU " ++ i ++ rest) ∧
      (∃ pre : String, gpuDetail n mu mt t = pre ++ t ++ "°C") ∧
      (∃ mid : String, gpuDetail n mu mt t = "           " ++ n ++ mid)) := by
  refine ⟨⟨rfl, "No GPU detected (nvidia-smi ", ")", rfl⟩, ?_, ?_, ?_, ?_⟩
  · intro rc out hrc
    rw [gpu_panel, if_pos hrc]
  · intro out hst
    rw [gpu_panel, if_neg (by norm_num), hst]
    rfl
  · intro out hall
    rw [gpu_panel, if_neg (by norm_num), gpu_lines_skip_all _ hall]
  · intro out row i n u mu mt t q hrows hfields hq
    have hlines : gpu_lines [row] = .ok
        [(make_bar ("GPU " ++ i) q).plain, gpuDetail n mu mt t, ""] := by
      rw [gpu_lines]
      rw [hfields]
      norm_num
      rw [hq]
      rfl
    refine ⟨?_, ?_, ?_, ?_⟩
    · rw [gpu_panel, if_neg (by norm_num), hrows, hlines]
    · refine ⟨String.mk (List.replicate (10 - ("GPU " ++ i).length) ' ') ++
        (" " ++ ((make_bar ("GPU " ++ i) q).bar_span.1 ++
          (make_bar ("GPU " ++ i) q).pct_span.1)), ?_⟩
      show (padTo ("GPU " ++ i) 10 ++ " ") ++ _ ++ _ = _
      rw [padTo_eq_append, strAppend_assoc, strAppend_assoc, strAppend_assoc,
        strAppend_assoc]
    · exact ⟨"           " ++ n ++ "  |  " ++ mu ++ "/" ++ mt ++ " MiB  |  ", rfl⟩
    · refine ⟨"  |  " ++ (mu ++ ("/" ++ (mt ++ (" MiB  |  " ++ (t ++ "°C"))))), ?_⟩
      rw [gpuDetail, strAppend_assoc, strAppend_assoc, strAppend_assoc,
        strAppend_assoc, strAppend_assoc, strAppend_assoc, strAppend_assoc]

/-- Witness for C7 at the tool outcomes of the unit tests, including the
concrete CSV record of an RTX 4090. -/
theorem gpu_panel_outcome_mapping_witness :
    gpu_panel (.ran 2 "whatever") = .fallback "nvidia-smi returned an error" "bold red" ∧
    gpu_panel (.ran 0 "  ") = .fallback "No GPU data returned" "dim italic" ∧
    gpu_panel (.ran 0 "0, NVIDIA RTX 4090, 45") =
      .fallback "No GPU data returned" "dim italic" ∧
    gpu_panel (.ran 0 "0, NVIDIA RTX 4090, 45, 2048, 24576, 55") =
      .content [(make_bar ("GPU " ++ "0") 45).plain,
        gpuDetail "NVIDIA RTX 4090" "2048" "24576" "55", ""] := by
  have hfl : pyFloatOpt "45" = some 45 := by
    have hraw : pyFloatRaw "45" = some (45, 0) := by decide
    simp [pyFloatOpt, hraw]
  exact ⟨gpu_panel_outcome_mapping.2.1 2 "whatever" (by norm_num),
    gpu_panel_outcome_mapping.2.2.1 "  " (by decide),
    gpu_panel_outcome_mapping.2.2.2.1 "0, NVIDIA RTX 4090, 45" (by decide),
    (gpu_panel_outcome_mapping.2.2.2.2 "0, NVIDIA RTX 4090, 45, 2048, 24576, 55"
      "0, NVIDIA RTX 4090, 45, 2048, 24576, 55" "0" "NVIDIA RTX 4090" "45" "2048"
      "24576" "55" 45 (by decide) (by decide) hfl).1⟩

/-- C10: when the tool succeeds and some record has at least six fields
but its utilization field does not parse as a number, the row loop
raises and the outer handler replaces the whole panel with the generic
fallback, discarding every other record. -/
theorem gpu_panel_bad_float_blanks (out : String) (rows : List String) (r : String)
    (hout : pySplitlines (pyStrip out) = rows) (hr : r ∈ rows)
    (h6 : 6 ≤ (gpuFields r).length)
    (hbad : pyFloatOpt ((gpuFields r).getD 2 "") = none) :
    gpu_lines rows = .error () ∧
    gpu_panel (.ran 0 out) = .fallback "No GPU detected" "dim italic" := by
  have herr := gpu_lines_error_of_bad rows r hr h6 hbad
  refine ⟨herr, ?_⟩
  rw [gpu_panel, if_neg (by norm_num), hout, herr]

/-- Witness for C10: a well-formed first record followed by a record
whose utilization field reads `N/A`; the panel falls back entirely. -/
theorem gpu_panel_bad_float_blanks_witness :
    gpu_panel (.ran 0 "0, RTX A, 45, 2048, 24576, 55\n1, RTX B, N/A, 0, 0, 0") =
      .fallback "No GPU detected" "dim italic" :=
  (gpu_panel_bad_float_blanks "0, RTX A, 45, 2048, 24576, 55\n1, RTX B, N/A, 0, 0, 0"
    ["0, RTX A, 45, 2048, 24576, 55", "1, RTX B, N/A, 0, 0, 0"]
    "1, RTX B, N/A, 0, 0, 0" (by decide) (by decide) (by decide) (by decide)).2

/-! ### Claim C8: containers panel -/

/-- C8: every parsed container record yields a row whose status cell is
tinted green exactly when the status text contains "Up" and yellow
otherwise, whose ports field is at most 40 characters and carries an
ellipsis when it was cut; an unparsable line yields no row and a line
list keeps exactly its parsable rows; and every non-success tool
outcome renders a single fallback text block instead of a table. -/
theorem docker_panel_spec :
    (∀ c : DockerRec, ∃ row : DockRow,
      docker_container_row (some c) = some row ∧
      row.ports_cell.length ≤ 40 ∧
      (40 < (c.ports.getD "").length →
        row.ports_cell.length = 40 ∧ ∃ a : String, row.ports_cell = a ++ "...") ∧
      (strHasSub "Up" (dockerStatusOf c) = true →
        ∃ m : String, row.status_cell = "[green]" ++ m) ∧
      (strHasSub "Up" (dockerStatusOf c) = false →
        ∃ m : String, row.status_cell = "[yellow]" ++ m)) ∧
    docker_container_row none = none ∧
    (∀ pre post : List (Option DockerRec),
      (pre ++ none :: post).filterMap docker_container_row =
        (pre ++ post).filterMap docker_container_row) ∧
    (∃ m, docker_panel .notFound = .fallback m) ∧
    (∃ m, docker_panel .exn = .fallback m) ∧
    (∀ (rc : ℤ) (err : String) (lines : List (Option DockerRec)), rc ≠ 0 →
      ∃ m, docker_panel (.ran rc err lines) = .fallback m) ∧
    (∀ err : String, docker_panel (.ran 0 err []) = .fallback "No running containers") := by
  refine ⟨?_, rfl, ?_, ⟨_, rfl⟩, ⟨_, rfl⟩, ?_, fun err => rfl⟩
  · intro c
    refine ⟨_, rfl, ?_, ?_, ?_, ?_⟩
    · by_cases h40 : 40 < (c.ports.getD "").length
      · simp only [docker_container_row, if_pos h40]
        rw [strLength_append, strTake_length]
        have h3 : ("..." : String).length = 3 := rfl
        rw [h3]
        omega
      · simp only [docker_container_row, if_neg h40]
        omega
    · intro h40
      constructor
      · simp only [docker_container_row, if_pos h40]
        rw [strLength_append, strTake_length]
        have h3 : ("..." : String).length = 3 := rfl
        rw [h3]
        omega
      · simp only [docker_container_row, if_pos h40]
        exact ⟨strTake (c.ports.getD "") 37, rfl⟩
    · intro hup
      simp only [docker_container_row, hup, if_pos]
      refine ⟨strTake (dockerStatusOf c) 25 ++ "[/]", ?_⟩
      rw [show ("[" ++ "green" ++ "]" : String) = "[green]" from rfl,
        strAppend_assoc]
    · intro hup
      simp only [docker_container_row, hup]
      rw [if_neg (show ¬ (false = true) by decide)]
      refine ⟨strTake (dockerStatusOf c) 25 ++ "[/]", ?_⟩
      rw [show ("[" ++ "yellow" ++ "]" : String) = "[yellow]" from rfl,
        strAppend_assoc]
  · intro pre post
    rw [List.filterMap_append, List.filterMap_append, List.filterMap_cons]
    rfl
  · intro rc err lines hrc
    refine ⟨strTake (docker_err_msg err) 80, ?_⟩
    rw [docker_panel, if_pos hrc]

/-- Witness for C8: a running nginx container with an overlong ports
field, plus the nonzero-exit outcome. -/
theorem docker_panel_spec_witness :
    (∃ row : DockRow,
      docker_container_row (some ⟨some "web", some "nginx", some "Up 3 days", none,
        some "0.0.0.0:8080->80/tcp, 0.0.0.0:8443->443/tcp, [::]:80->80/tcp"⟩) =
        some row ∧ row.ports_cell.length ≤ 40) ∧
    (∃ m, docker_panel (.ran 1 "permission denied" []) = .fallback m) ∧
    docker_panel (.ran 0 "" []) = .fallback "No running containers" := by
  rcases docker_panel_spec.1 ⟨some "web", some "nginx", some "Up 3 days", none,
      some "0.0.0.0:8080->80/tcp, 0.0.0.0:8443->443/tcp, [::]:80->80/tcp"⟩ with
    ⟨row, hrow, hlen, hrest⟩
  exact ⟨⟨row, hrow, hlen⟩,
    docker_panel_spec.2.2.2.2.2.1 1 "permission denied" [] (by norm_num),
    docker_panel_spec.2.2.2.2.2.2 ""⟩

/-! ### Claim C9: layout regions -/

/-- C9: independently of every runtime value, the layout tree's
panel-holding regions are exactly header, cpu, mem, disk, net, proc,
docker and gpu (all initially empty), and a refresh cycle keeps the
region tree identical, only filling each region's content with its
panel. -/
theorem layout_regions_spec (α : Type) (hp cp mp dp pp np kp gp : α) :
    leafNames (build_layout (α := α)) =
      ["header", "cpu", "mem", "disk", "net", "proc", "docker", "gpu"] ∧
    layoutShape (refresh_panels build_layout hp cp mp dp pp np kp gp) =
      layoutShape (build_layout (α := α)) ∧
    leafNames (refresh_panels build_layout hp cp mp dp pp np kp gp) =
      leafNames (build_layout (α := α)) ∧
    leafContents (refresh_panels build_layout hp cp mp dp pp np kp gp) =
      [some hp, some cp, some mp, some dp, some np, some pp, some kp, some gp] ∧
    leafContents (build_layout (α := α)) =
      [none, none, none, none, none, none, none, none] :=
  ⟨rfl, rfl, rfl, rfl, rfl⟩
